import Mathlib

/-!
# Shallow embedding of `fldb.py` (facelookup)

This file embeds the core of `src/fldb.py` — the `FLDB` database, `Image`,
`Face` and `Person` classes — as pure Lean functions over an explicit state,
and proves properties of the embedded code.

Modelling conventions:

* Python dictionaries become association lists `List (String × α)`;
  `d[k] = v` is `dinsert` (overwrite in place, append if absent), lookups are
  `dlookup`, `d.keys()` is `List.map Prod.fst`.
* Python objects are addressed by their identity key (`Person` by name,
  `Image` by url, `Face` by face id), living in the `DBState` maps.
* Mutation is explicit state passing.  A raised Python exception is the
  `Res.err` constructor; mutations performed before the raise persist, so
  every state-touching operation returns `Res α × DBState`.
* Similarity scores are embedded as rationals (`ℚ`); the source uses Python
  floats but no claim depends on rounding.
* Raw collaborator records (the dicts returned by the recognition backend)
  are `RawData`: an open record carrying exactly the keys this code ever
  reads (`FaceId`, `ExternalImageId`, `Face`, `Similarity`); a missing key
  raises `KeyError` just as subscripting a Python dict does.
* The collaborator client (`self.rekog`) is a `Rekog` structure of response
  tables; the embedded state counts how many detection (`index_faces`) and
  comparison (`search_faces`) backend calls were made, so that claims about
  call counts are statable.
-/

/-- Python exceptions raised by the embedded code.  `alreadyExists` embeds
the failed `assert <key> not in <mapping>` guards of `add_person` /
`add_image` (the error the design documents name `AlreadyExists`);
`keyError k` embeds `KeyError` from subscripting a dict missing key `k`;
`attributeError a` embeds `AttributeError` from reading attribute `a` off an
object that does not define it; `typeError` embeds `TypeError` from
subscripting `None`. -/
inductive PyErr where
  | alreadyExists : PyErr
  | keyError : String → PyErr
  | attributeError : String → PyErr
  | typeError : PyErr
deriving DecidableEq, Repr

/-- Result of running a piece of Python code: a value or a raised exception. -/
inductive Res (α : Type) where
  | ok : α → Res α
  | err : PyErr → Res α
deriving DecidableEq, Repr

/-- A raw record from the recognition collaborator, as a Python dict holding
at most the keys the source ever reads.  `FaceId`/`ExternalImageId` are the
flat keys, `face` is the nested `'Face'` sub-record (present in
`FaceRecords` / `FaceMatches` entries), `similarity` is `'Similarity'`. -/
inductive RawData where
  | mk : (faceId : Option String) → (externalImageId : Option String) →
         (face : Option RawData) → (similarity : Option ℚ) → RawData

/-- The `'FaceId'` key of a raw record. -/
def RawData.getFaceId : RawData → Option String
  | .mk f _ _ _ => f

/-- The `'ExternalImageId'` key of a raw record. -/
def RawData.getExternalImageId : RawData → Option String
  | .mk _ e _ _ => e

/-- The `'Face'` key of a raw record. -/
def RawData.getFace : RawData → Option RawData
  | .mk _ _ f _ => f

/-- The `'Similarity'` key of a raw record. -/
def RawData.getSimilarity : RawData → Option ℚ
  | .mk _ _ _ s => s

/-- Subscripting a Python dict: `d[k]` returns the value or raises
`KeyError k`. -/
def pyKey {α : Type} (v : Option α) (k : String) : Res α :=
  match v with
  | some a => .ok a
  | none => .err (.keyError k)

/-- One `Face` object (`Face.__init__`, src/fldb.py:119-129): its
collaborator-issued id `fid`, the url of its backing image, the confirmed
person back-reference (`self.person`, starts `None`), and the lazy
similarity cache (`self.similar`, starts `None`).  A cached similarity entry
`(g, q)` stands for the Python tuple of the `Face` object with id `g` and
the score `q`. -/
structure FaceObj where
  fid : String
  imageUrl : String
  person : Option String := none
  similar : Option (List (String × ℚ)) := none
deriving DecidableEq, Repr

/-- The whole mutable state: the three mappings owned by `FLDB.__init__`
(src/fldb.py:16-18) — an `Image` is its lazy face-list cache (`self.faces`
of `Image`, a list of the constructed `FaceObj`s), a `Person` is its list of
confirmed face ids (`self.faces` of `Person`) — plus two instrumentation
counters recording how many detection (`rekog.index_faces`) and comparison
(`rekog.search_faces`) collaborator calls have been made. -/
structure DBState where
  persons : List (String × List String) := []
  images : List (String × Option (List FaceObj)) := []
  faces : List (String × FaceObj) := []
  detectCalls : Nat := 0
  searchCalls : Nat := 0
deriving DecidableEq, Repr

/-- The empty database (`FLDB.__init__` with no initial data). -/
def dbInit : DBState := {}

/-- Association-list lookup, the embedding of `d[k]` / `k in d`. -/
def dlookup {α : Type} : List (String × α) → String → Option α
  | [], _ => none
  | (k', v) :: rest, k => if k' = k then some v else dlookup rest k

/-- Association-list store, the embedding of `d[k] = v`: overwrites in place
when the key is present (keeping its position, as a Python dict does),
appends otherwise. -/
def dinsert {α : Type} : List (String × α) → String → α → List (String × α)
  | [], k, v => [(k, v)]
  | (k', v') :: rest, k, v =>
      if k' = k then (k, v) :: rest else (k', v') :: dinsert rest k v

/-- In-place update of the object stored under `k`, if any (the embedding of
mutating an attribute of the object `d[k]`). -/
def dmodify {α : Type} : List (String × α) → String → (α → α) → List (String × α)
  | [], _, _ => []
  | (k', v) :: rest, k, f =>
      if k' = k then (k, f v) :: rest else (k', v) :: dmodify rest k f

/-- The recognition collaborator (`self.rekog`): response tables for the
three backend calls the core makes.  `listPages` are the successive result
pages of the face-listing call; a single call without a page token returns
the first page only. -/
structure Rekog where
  searchResp : String → List RawData
  indexResp : String → List RawData
  listPages : List (List RawData)

/-- A collaborator that returns nothing. -/
def rekogEmpty : Rekog := ⟨fun _ => [], fun _ => [], []⟩

/-- `FLDB.add_person` (src/fldb.py:21-26): `assert name not in self.persons`
(raising before any mutation), then register an empty `Person` and return
it (a `Person` is referenced by its name). -/
def add_person (st : DBState) (name : String) : Res String × DBState :=
  match dlookup st.persons name with
  | some _ => (.err .alreadyExists, st)
  | none => (.ok name, { st with persons := dinsert st.persons name [] })

/-- `FLDB.get_person` (src/fldb.py:27-31): create on demand when `create`,
else a plain lookup (`self.persons[name]`, `KeyError` when absent). -/
def get_person (st : DBState) (name : String) (create : Bool) :
    Res String × DBState :=
  if create ∧ dlookup st.persons name = none then
    add_person st name
  else
    match dlookup st.persons name with
    | some _ => (.ok name, st)
    | none => (.err (.keyError name), st)

/-- The `index = False` behaviour of `FLDB.add_image` (src/fldb.py:32-40):
assert the url is fresh, construct an `Image` (face cache `None`) and
register it.  Split out because `Face.__init__` reaches it through
`get_image(create=True)` and this branch makes no further calls, which
breaks the mutual recursion of the source. -/
def add_image_noindex (st : DBState) (url : String) : Res String × DBState :=
  match dlookup st.images url with
  | some _ => (.err .alreadyExists, st)
  | none => (.ok url, { st with images := dinsert st.images url none })

/-- `FLDB.get_image` (src/fldb.py:41-46): when `create` and absent, add an
unindexed image; else a plain lookup (`KeyError` when absent). -/
def get_image (st : DBState) (url : String) (create : Bool) :
    Res String × DBState :=
  if create ∧ dlookup st.images url = none then
    add_image_noindex st url
  else
    match dlookup st.images url with
    | some _ => (.ok url, st)
    | none => (.err (.keyError url), st)

/-- `Face.__init__` (src/fldb.py:119-129): read
`fulldata['Face']['FaceId']`; resolve the backing image — the passed one if
any, else `get_image(fulldata['Face']['ExternalImageId'], create=True)` —
and return the new object (person and similarity cache unset).  The
constructor does not register the face; callers do. -/
def face_mk (st : DBState) (fulldata : RawData) (image : Option String) :
    Res FaceObj × DBState :=
  match pyKey fulldata.getFace "Face" with
  | .err e => (.err e, st)
  | .ok inner =>
    match pyKey inner.getFaceId "FaceId" with
    | .err e => (.err e, st)
    | .ok fid =>
      match image with
      | some url => (.ok { fid := fid, imageUrl := url }, st)
      | none =>
        match pyKey inner.getExternalImageId "ExternalImageId" with
        | .err e => (.err e, st)
        | .ok ext =>
          match get_image st ext true with
          | (.err e, st') => (.err e, st')
          | (.ok url, st') => (.ok { fid := fid, imageUrl := url }, st')

/-- The creation step of `FLDB.get_face` (src/fldb.py:51-53): when `create`
and `data` given and the id unknown, construct `Face(self, data)` — note
the constructor is handed `data` itself, which it subscripts with `'Face'`
— and register it under `fid`. -/
def get_face_create (st : DBState) (fid : String) (data? : Option RawData)
    (create : Bool) : Res Unit × DBState :=
  match data? with
  | some d =>
    if create ∧ dlookup st.faces fid = none then
      match face_mk st d none with
      | (.err e, st') => (.err e, st')
      | (.ok obj, st') =>
          (.ok (), { st' with faces := dinsert st'.faces fid obj })
    else (.ok (), st)
  | none => (.ok (), st)

/-- The `if not fid: fid = data['FaceId']` step of `FLDB.get_face`
(src/fldb.py:49-50): an absent or empty-string id falls back to the
`'FaceId'` key of `data` (`TypeError` when `data` is `None` too). -/
def get_face_fid (fid? : Option String) (data? : Option RawData) :
    Res String :=
  match fid? with
  | some f => if f = "" then
      match data? with
      | none => .err .typeError
      | some d => pyKey d.getFaceId "FaceId"
    else .ok f
  | none =>
    match data? with
    | none => .err .typeError
    | some d => pyKey d.getFaceId "FaceId"

/-- `FLDB.get_face` (src/fldb.py:47-54): take `fid` from the argument or
from `data['FaceId']`; run the creation step; finally return
`self.faces[fid]` (`KeyError` when still absent). -/
def get_face (st : DBState) (fid? : Option String) (data? : Option RawData)
    (create : Bool) : Res FaceObj × DBState :=
  match get_face_fid fid? data? with
  | .err e => (.err e, st)
  | .ok fid =>
    match get_face_create st fid data? create with
    | (.err e, st') => (.err e, st')
    | (.ok _, st') =>
      match dlookup st'.faces fid with
      | some obj => (.ok obj, st')
      | none => (.err (.keyError fid), st')

/-- `FLDB.search_faces` (src/fldb.py:91-96): one comparison-collaborator
call (`_search_faces`, counted), then wrap every match `x` as the tuple
`(self.get_face(data=x['Face'], create=True), x['Similarity']/100.0)`.
The loop below threads the state through the wrapping of each match in
order; the tuple holds the `Face` object, referenced here by its id. -/
def search_wrap (st : DBState) : List RawData → Res (List (String × ℚ)) × DBState
  | [] => (.ok [], st)
  | x :: rest =>
    match pyKey x.getFace "Face" with
    | .err e => (.err e, st)
    | .ok inner =>
      match get_face st none (some inner) true with
      | (.err e, st') => (.err e, st')
      | (.ok obj, st') =>
        match pyKey x.getSimilarity "Similarity" with
        | .err e => (.err e, st')
        | .ok raw =>
          match search_wrap st' rest with
          | (.err e, st'') => (.err e, st'')
          | (.ok tl, st'') => (.ok ((obj.fid, raw / 100) :: tl), st'')

/-- `FLDB.search_faces` itself: the backend call plus the wrapping loop. -/
def search_faces (rk : Rekog) (st : DBState) (fid : String) :
    Res (List (String × ℚ)) × DBState :=
  search_wrap { st with searchCalls := st.searchCalls + 1 } (rk.searchResp fid)

/-- The assignment `self.similar = sims` on the face object stored under
`fid`. -/
def setSimilar (st : DBState) (fid : String) (sims : List (String × ℚ)) :
    DBState :=
  { st with faces := dmodify st.faces fid fun o => { o with similar := some sims } }

/-- `Face.get_similar` (src/fldb.py:130-134): when `refresh` or the cache
`is None`, recompute via `search_faces` and store the result on the object;
otherwise return the cache.  The face is addressed by id in `st.faces`. -/
def face_get_similar (rk : Rekog) (st : DBState) (fid : String)
    (refresh : Bool) : Res (List (String × ℚ)) × DBState :=
  match dlookup st.faces fid with
  | none => (.err (.keyError fid), st)
  | some f =>
    match f.similar with
    | some cached =>
      if refresh then
        match search_faces rk st fid with
        | (.err e, st') => (.err e, st')
        | (.ok sims, st') => (.ok sims, setSimilar st' fid sims)
      else (.ok cached, st)
    | none =>
      match search_faces rk st fid with
      | (.err e, st') => (.err e, st')
      | (.ok sims, st') => (.ok sims, setSimilar st' fid sims)

/-- `FLDB.index_faces` (src/fldb.py:80-90): one detection-collaborator call
(`_index_faces`, counted), then construct `Face(self, x)` for every
returned record (no image argument — the constructor resolves it from the
record), threading the state. -/
def index_wrap (st : DBState) : List RawData → Res (List FaceObj) × DBState
  | [] => (.ok [], st)
  | x :: rest =>
    match face_mk st x none with
    | (.err e, st') => (.err e, st')
    | (.ok obj, st') =>
      match index_wrap st' rest with
      | (.err e, st'') => (.err e, st'')
      | (.ok tl, st'') => (.ok (obj :: tl), st'')

/-- `FLDB.index_faces` itself. -/
def index_faces (rk : Rekog) (st : DBState) (url : String) :
    Res (List FaceObj) × DBState :=
  index_wrap { st with detectCalls := st.detectCalls + 1 } (rk.indexResp url)

/-- `Image.get_faces` (src/fldb.py:107-111): `if self.faces: return
self.faces` — a truthiness test, so both an unpopulated cache (`None`) and
a cached empty list fall through to `self.faces = self.db.index_faces(self)`. -/
def image_get_faces (rk : Rekog) (st : DBState) (url : String) :
    Res (List FaceObj) × DBState :=
  match dlookup st.images url with
  | none => (.err (.keyError url), st)
  | some cache =>
    match cache with
    | some (a :: l) => (.ok (a :: l), st)
    | _ =>
      match index_faces rk st url with
      | (.err e, st') => (.err e, st')
      | (.ok objs, st') =>
          (.ok objs,
           { st' with images := dinsert st'.images url (some objs) })

/-- The registration `self.faces.update(\x7bx.fid: x for x in ...\x7d)` of
`FLDB.add_image`. -/
def registerFaces (st : DBState) (objs : List FaceObj) : DBState :=
  { st with faces := objs.foldl (fun m x => dinsert m x.fid x) st.faces }

/-- `FLDB.add_image` (src/fldb.py:32-40): assert the url fresh, register the
image; when `index`, call `image.get_faces()` and register every returned
face object under its own id. -/
def add_image (rk : Rekog) (st : DBState) (url : String) (index : Bool) :
    Res String × DBState :=
  match add_image_noindex st url with
  | (.err e, st') => (.err e, st')
  | (.ok _, st') =>
    if index then
      match image_get_faces rk st' url with
      | (.err e, st'') => (.err e, st'')
      | (.ok objs, st'') => (.ok url, registerFaces st'' objs)
    else (.ok url, st')

/-- `FLDB.list_faces` (src/fldb.py:55-61): when `refresh`, one listing
collaborator call — the source never follows the next-page token (`# TODO
handle NextToken`), so only the first page is consumed — rebuilding
`self.faces` as `{x['FaceId']: Face(self, x) for x in ...}`; then return
`self.faces.keys()`. -/
def list_refresh_wrap (st : DBState) (acc : List (String × FaceObj)) :
    List RawData → Res (List (String × FaceObj)) × DBState
  | [] => (.ok acc, st)
  | x :: rest =>
    match pyKey x.getFaceId "FaceId" with
    | .err e => (.err e, st)
    | .ok k =>
      match face_mk st x none with
      | (.err e, st') => (.err e, st')
      | (.ok obj, st') => list_refresh_wrap st' (dinsert acc k obj) rest

/-- `FLDB.list_faces` itself. -/
def list_faces (rk : Rekog) (st : DBState) (refresh : Bool) :
    Res (List String) × DBState :=
  if refresh then
    match list_refresh_wrap st [] (rk.listPages.headD []) with
    | (.err e, st') => (.err e, st')
    | (.ok m, st') =>
        let st'' := { st' with faces := m }
        (.ok (st''.faces.map Prod.fst), st'')
  else (.ok (st.faces.map Prod.fst), st)

/-- `Face.set_person` / `Person.add_face` (src/fldb.py:138-143,155-160): the
confirmation operation, setting the face's `person` back-reference and
appending the face to the person's confirmed list in one step. -/
def set_person (st : DBState) (fid : String) (name : String) : DBState :=
  { st with
    faces := dmodify st.faces fid (fun o => { o with person := some name }),
    persons := dinsert st.persons name
      ((dlookup st.persons name).getD [] ++ [fid]) }

/-- The confirmed person of the face registered under `fid`, if any. -/
def facePersonOf (st : DBState) (fid : String) : Option String :=
  (dlookup st.faces fid).bind (fun o => o.person)

/-- `Face.get_person` (src/fldb.py:144-147): a confirmed face answers
`[(self.person, 1)]`; an unconfirmed one evaluates
`[(x[0].person, x[1]) for x in self.get_similar() if x[0].persom]` — and
`persom` is not an attribute `Face` objects define, so the filter raises
`AttributeError('persom')` on the first element; only an empty similarity
list survives (giving `[]`). -/
def face_get_person (rk : Rekog) (st : DBState) (fid : String) :
    Res (List (String × ℚ)) × DBState :=
  match dlookup st.faces fid with
  | none => (.err (.keyError fid), st)
  | some f =>
    match f.person with
    | some p => (.ok [(p, 1)], st)
    | none =>
      match face_get_similar rk st fid false with
      | (.err e, st') => (.err e, st')
      | (.ok sims, st') =>
        match sims with
        | [] => (.ok [], st')
        | _ :: _ => (.err (.attributeError "persom"), st')

/-- Stable descending insertion by score, modelling Python's stable
`sorted(..., key=lambda x: x[1], reverse=True)`: the inserted element goes
in front of the first strictly smaller score, after any equal ones. -/
def insertDesc (x : String × ℚ) : List (String × ℚ) → List (String × ℚ)
  | [] => [x]
  | y :: ys => if y.2 ≤ x.2 then x :: y :: ys else y :: insertDesc x ys

/-- `sorted(faces.values(), key=lambda x: x[1], reverse=True)`
(src/fldb.py:176). -/
def sortDesc : List (String × ℚ) → List (String × ℚ)
  | [] => []
  | x :: xs => insertDesc x (sortDesc xs)

/-- The guess-accumulation loop of `Person.get_faces` (src/fldb.py:163-170):
for every confirmed face, fetch its similarity list and evaluate
`[x for x in ... if not x.person]`.  Each `x` is a `(Face, similarity)`
tuple, and Python tuples define no attribute `person`, so the filter raises
`AttributeError('person')` on the first element of any non-empty similarity
list; only an empty list leaves the loop body a no-op (its inner
accumulation, which would also crash at `sim.fid`, is unreachable).  `acc`
is the `faces` dict, mapping a candidate id to the `(Face, score)` tuple. -/
def guessLoop (rk : Rekog) (st : DBState) (refresh : Bool)
    (acc : List (String × (String × ℚ))) :
    List String → Res (List (String × (String × ℚ))) × DBState
  | [] => (.ok acc, st)
  | fid :: rest =>
    match face_get_similar rk st fid refresh with
    | (.err e, st') => (.err e, st')
    | (.ok sims, st') =>
      match sims with
      | [] => guessLoop rk st' refresh acc rest
      | _ :: _ => (.err (.attributeError "person"), st')

/-- The guessed portion of `Person.get_faces(guess=True)`: the `faces` dict
as it stands after the accumulation loop over the person's confirmed faces,
before the confirmed overlay is applied. -/
def person_guessed_portion (rk : Rekog) (st : DBState) (name : String)
    (refresh : Bool) : Res (List (String × (String × ℚ))) × DBState :=
  match dlookup st.persons name with
  | none => (.err (.keyError name), st)
  | some pfaces => guessLoop rk st refresh [] pfaces

/-- The confirmed overlay `faces.update(\x7bx.fid: (x, 1.0) for x in
self.faces\x7d)` (src/fldb.py:174). -/
def confirmedOverlay (acc : List (String × (String × ℚ)))
    (pfaces : List String) : List (String × (String × ℚ)) :=
  pfaces.foldl (fun m fid => dinsert m fid (fid, 1)) acc

/-- `Person.get_faces` (src/fldb.py:161-176).  When `guess`, run the
accumulation loop; the normalization loop `for thisguess in faces.values():
thisguess = (...)` only rebinds its loop variable and never writes back to
the dict, so it is the identity and is embedded as such.  Then overlay every
confirmed face at score `1.0` and return the values sorted by score
descending. -/
def person_get_faces (rk : Rekog) (st : DBState) (name : String)
    (guess : Bool) (refresh : Bool) :
    Res (List (String × ℚ)) × DBState :=
  match dlookup st.persons name with
  | none => (.err (.keyError name), st)
  | some pfaces =>
    if guess then
      match person_guessed_portion rk st name refresh with
      | (.err e, st') => (.err e, st')
      | (.ok acc, st') =>
          (.ok (sortDesc ((confirmedOverlay acc pfaces).map Prod.snd)), st')
    else
      (.ok (sortDesc ((confirmedOverlay [] pfaces).map Prod.snd)), st)

/-- Sorted by score descending: every element's score is at least every
later element's score (the postcondition of `sorted(..., key=lambda x:
x[1], reverse=True)`). -/
def ScoresSortedDesc (l : List (String × ℚ)) : Prop :=
  l.Pairwise (fun a b => b.2 ≤ a.2)

/-! ## The cross-entity confirmation invariant (claim C7)

The state machine below closes the embedded operations under sequencing.
`Step rk strict s s'` says one public core operation turns `s` into `s'`
(taking the post-state of the operation whether it returned or raised,
since Python keeps mutations made before a raise).  `list_faces` with
`refresh=True` is not included: it replaces every `Face` object wholesale
while `Person.faces` keeps holding the old objects, which the id-addressed
state cannot represent (`export_db` / `import_db` are `pass` stubs and
`create_all` / `delete_all` only touch the backend, so none of them move
this state).  With `strict := false` every sequence is allowed; with
`strict := true` a confirmation requires the face to be unconfirmed, and an
indexing registration must not reuse the id of an already-registered face. -/

/-- The detection records for `url` reuse no already-registered face id. -/
def IndexFresh (rk : Rekog) (s : DBState) (url : String) : Prop :=
  ∀ r ∈ rk.indexResp url, ∀ i, r.getFace = some i →
    ∀ fid, i.getFaceId = some fid → dlookup s.faces fid = none

/-- One core operation (see the section comment). -/
inductive Step (rk : Rekog) (strict : Bool) : DBState → DBState → Prop where
  | addPerson (s : DBState) (n : String) : Step rk strict s (add_person s n).2
  | getPerson (s : DBState) (n : String) (c : Bool) :
      Step rk strict s (get_person s n c).2
  | addImage (s : DBState) (url : String) (idx : Bool)
      (h : strict = true → IndexFresh rk s url) :
      Step rk strict s (add_image rk s url idx).2
  | getImage (s : DBState) (url : String) (c : Bool) :
      Step rk strict s (get_image s url c).2
  | getFace (s : DBState) (f : Option String) (d : Option RawData) (c : Bool) :
      Step rk strict s (get_face s f d c).2
  | getSimilar (s : DBState) (fid : String) (r : Bool) :
      Step rk strict s (face_get_similar rk s fid r).2
  | getPersonOfFace (s : DBState) (fid : String) :
      Step rk strict s (face_get_person rk s fid).2
  | personGetFaces (s : DBState) (n : String) (g r : Bool) :
      Step rk strict s (person_get_faces rk s n g r).2
  | confirm (s : DBState) (fid n : String)
      (hf : dlookup s.faces fid ≠ none) (hp : dlookup s.persons n ≠ none)
      (hs : strict = true → facePersonOf s fid = none) :
      Step rk strict s (set_person s fid n)

/-- States reachable from the fresh database by core operations. -/
inductive Reach (rk : Rekog) (strict : Bool) : DBState → Prop where
  | init : Reach rk strict dbInit
  | step {s s' : DBState} : Reach rk strict s → Step rk strict s s' →
      Reach rk strict s'

/-- The cross-entity invariant of the design: a face's person back-reference
and the persons' confirmed lists agree. -/
def ConfirmInv (s : DBState) : Prop :=
  (∀ n pf fid, dlookup s.persons n = some pf → fid ∈ pf →
     facePersonOf s fid = some n) ∧
  (∀ fid n, facePersonOf s fid = some n →
     ∃ pf, dlookup s.persons n = some pf ∧ fid ∈ pf)

/-- How an auxiliary operation may change one slot of the face table:
an existing face keeps its person back-reference, a new face is
unconfirmed, and no face is removed. -/
def personRel : Option FaceObj → Option FaceObj → Prop
  | some o, some o' => o'.person = o.person
  | none, some o' => o'.person = none
  | some _, none => False
  | none, none => True

/-- An auxiliary (non-confirming) operation: persons untouched, faces
changed only as `personRel` allows. -/
def AuxOK (s s' : DBState) : Prop :=
  s'.persons = s.persons ∧
  ∀ fid, personRel (dlookup s.faces fid) (dlookup s'.faces fid)

/-- An operation that can touch only the image table (the effect of image
construction and lazy image creation). -/
def OnlyImagesChanged (s s' : DBState) : Prop :=
  s'.persons = s.persons ∧ s'.faces = s.faces ∧
  s'.detectCalls = s.detectCalls ∧ s'.searchCalls = s.searchCalls

/-- The effect of face resolution (`get_face` and the search-wrapping
loop): persons and call counters untouched; the face table only gains
fresh, unconfirmed entries — every existing entry keeps its exact value. -/
def FacesExtend (s s' : DBState) : Prop :=
  s'.persons = s.persons ∧
  s'.detectCalls = s.detectCalls ∧
  s'.searchCalls = s.searchCalls ∧
  (∀ k o, dlookup s.faces k = some o → dlookup s'.faces k = some o) ∧
  (∀ k o', dlookup s'.faces k = some o' →
     dlookup s.faces k = some o' ∨
     (dlookup s.faces k = none ∧ o'.person = none))

/-! ## Concrete scenario states used by the claim theorems -/

/-- Claim C1's scenario: person `P` with confirmed faces `A` and `B`;
unconfirmed candidate `C` with cached similarity `0.8` to `A` and `0.6` to
`B` and no other similarity entries. -/
def stC1 : DBState :=
  { persons := [("P", ["A", "B"])],
    faces :=
      [("A", { fid := "A", imageUrl := "u", person := some "P",
               similar := some [("C", 4/5)] }),
       ("B", { fid := "B", imageUrl := "u", person := some "P",
               similar := some [("C", 3/5)] }),
       ("C", { fid := "C", imageUrl := "u", similar := some [] })] }

/-- A person `P` with no confirmed faces next to an unrelated confirmed
face, for the C2/C3 witnesses. -/
def stW : DBState :=
  { persons := [("P", [])],
    faces := [("c", { fid := "c", imageUrl := "u", person := some "Q" })] }

/-- A person `P` with one confirmed face `f` whose similarity cache is an
empty list, for the C3 witness: `get_faces(guess=True)` succeeds and
returns the singleton `[(f, 1.0)]`. -/
def stC3w : DBState :=
  { persons := [("P", ["f"])],
    faces := [("f", { fid := "f", imageUrl := "u", person := some "P",
                      similar := some [] })] }

/-- A face record of the listing shape the refresh code can actually
consume: carrying both the flat `FaceId` key (used for the mapping key) and
the nested `Face` record (demanded by `Face.__init__`). -/
def recB (f u : String) : RawData :=
  .mk (some f) none (some (.mk (some f) (some u) none none)) none

/-- Claim C4's collaborator: the full face listing is two pages of 2 and 1
records. -/
def rkC4 : Rekog :=
  ⟨fun _ => [], fun _ => [], [[recB "f1" "u", recB "f2" "u"], [recB "f3" "u"]]⟩

/-- Claim C5's state: unconfirmed face `A` whose cached similarity list
names face `B`, which is confirmed to `p`; and a confirmed face `D`. -/
def stC5 : DBState :=
  { faces :=
      [("A", { fid := "A", imageUrl := "u", similar := some [("B", 1/2)] }),
       ("B", { fid := "B", imageUrl := "u", person := some "p" }),
       ("D", { fid := "D", imageUrl := "u", person := some "p" })] }

/-- One unindexed image, face cache unpopulated. -/
def stImg : DBState := { images := [("u", none)] }

/-- A collaborator whose detection result for every image is one face. -/
def rkDetectOne : Rekog := ⟨fun _ => [], fun _ => [recB "f1" "u"], []⟩

/-- A search match in the collaborator's response shape: similarity `90`
for the face record of `B` (nested under the `Face` key, as the backend
returns it; the inner record itself has no `Face` key). -/
def rkSearchB : Rekog :=
  ⟨fun _ => [.mk none none (some (.mk (some "B") (some "u") none none)) (some 90)],
   fun _ => [], []⟩

/-- Face `A` alone, similarity cache unpopulated. -/
def stA : DBState := { faces := [("A", { fid := "A", imageUrl := "u" })] }

/-- Faces `A` and `B` both registered, caches unpopulated. -/
def stAB : DBState :=
  { faces := [("A", { fid := "A", imageUrl := "u" }),
              ("B", { fid := "B", imageUrl := "u" })] }

/-- The face list detected by `rkDetectOne` for image `u`. -/
def outC6 : List FaceObj := [{ fid := "f1", imageUrl := "u" }]

/-- The state after a first `Image.get_faces` call on `stImg` against
`rkDetectOne`: cache populated, one detection call made. -/
def stC6done : DBState :=
  { images := [("u", some outC6)], detectCalls := 1 }

/-- The state after a first `Face.get_similar` call on `stA` against the
empty collaborator: empty similarity list cached, one search call made. -/
def stA1 : DBState :=
  { faces := [("A", { fid := "A", imageUrl := "u", similar := some [] })],
    searchCalls := 1 }

/-- A wrapped detection-style record for face `f` (the shape
`Face.__init__` expects). -/
def rawWrapped (f u : String) : RawData :=
  .mk none none (some (.mk (some f) (some u) none none)) none

/-- Claim C7's counterexample run: register persons `p` and `q` and face
`f`, confirm `f` to `p`, then re-confirm `f` to `q`. -/
def sC7 : DBState :=
  set_person
    (set_person
      ((get_face ((add_person (add_person dbInit "p").2 "q").2)
          (some "f") (some (rawWrapped "f" "u")) true).2)
      "f" "p")
    "f" "q"

/-- A one-confirmation run for the C7 witness: person `p`, face `f`
registered then confirmed to `p`. -/
def sC7w : DBState :=
  set_person
    ((get_face ((add_person dbInit "p").2)
        (some "f") (some (rawWrapped "f" "u")) true).2)
    "f" "p"

/-! ## Association-list lemmas -/

theorem dlookup_dinsert_self {α : Type} (m : List (String × α)) (k : String)
    (v : α) : dlookup (dinsert m k v) k = some v := by
  induction m with
  | nil => simp [dinsert, dlookup]
  | cons p rest ih =>
    obtain ⟨a, b⟩ := p
    by_cases h : a = k
    · subst h; simp [dinsert, dlookup]
    · simp [dinsert, dlookup, h, ih]

theorem dlookup_dinsert_ne {α : Type} (m : List (String × α)) (k k' : String)
    (v : α) (h : ¬ k = k') : dlookup (dinsert m k v) k' = dlookup m k' := by
  induction m with
  | nil => simp [dinsert, dlookup, h]
  | cons p rest ih =>
    obtain ⟨a, b⟩ := p
    by_cases ha : a = k
    · subst ha
      simp [dinsert, dlookup, h]
    · simp [dinsert, dlookup, ha, ih]

theorem dlookup_dmodify_self {α : Type} (m : List (String × α)) (k : String)
    (f : α → α) : dlookup (dmodify m k f) k = (dlookup m k).map f := by
  induction m with
  | nil => simp [dmodify, dlookup]
  | cons p rest ih =>
    obtain ⟨a, b⟩ := p
    by_cases h : a = k
    · subst h; simp [dmodify, dlookup]
    · simp [dmodify, dlookup, h, ih]

theorem dlookup_dmodify_ne {α : Type} (m : List (String × α)) (k k' : String)
    (f : α → α) (h : ¬ k = k') :
    dlookup (dmodify m k f) k' = dlookup m k' := by
  induction m with
  | nil => simp [dmodify, dlookup]
  | cons p rest ih =>
    obtain ⟨a, b⟩ := p
    by_cases ha : a = k
    · subst ha
      simp [dmodify, dlookup, h]
    · simp [dmodify, dlookup, ha, ih]

/-! ## Sortedness of the embedded `sorted(..., reverse=True)` -/

theorem mem_insertDesc {x y : String × ℚ} {l : List (String × ℚ)}
    (h : y ∈ insertDesc x l) : y = x ∨ y ∈ l := by
  induction l with
  | nil => simpa [insertDesc] using h
  | cons z zs ih =>
    by_cases hc : z.2 ≤ x.2
    · simp [insertDesc, hc] at h
      rcases h with h | h | h
      · exact Or.inl h
      · exact Or.inr (by simp [h])
      · exact Or.inr (by simp [h])
    · simp [insertDesc, hc] at h
      rcases h with h | h
      · exact Or.inr (by simp [h])
      · rcases ih h with h' | h'
        · exact Or.inl h'
        · exact Or.inr (by simp [h'])

theorem insertDesc_sorted {x : String × ℚ} {l : List (String × ℚ)}
    (h : ScoresSortedDesc l) : ScoresSortedDesc (insertDesc x l) := by
  induction l with
  | nil => simp [insertDesc, ScoresSortedDesc]
  | cons z zs ih =>
    rw [ScoresSortedDesc, List.pairwise_cons] at h
    obtain ⟨hz, hzs⟩ := h
    by_cases hc : z.2 ≤ x.2
    · rw [ScoresSortedDesc]
      simp only [insertDesc, hc, if_pos]
      refine List.Pairwise.cons ?_ (List.Pairwise.cons hz hzs)
      intro w hw
      rcases List.mem_cons.mp hw with hw' | hw'
      · rw [hw']; exact hc
      · exact le_trans (hz w hw') hc
    · rw [ScoresSortedDesc]
      simp only [insertDesc, hc, if_neg, not_false_iff]
      refine List.Pairwise.cons ?_ (ih hzs)
      intro w hw
      rcases mem_insertDesc hw with hw' | hw'
      · subst hw'
        exact le_of_lt (lt_of_not_le hc)
      · exact hz w hw'

theorem sortDesc_sorted (l : List (String × ℚ)) :
    ScoresSortedDesc (sortDesc l) := by
  induction l with
  | nil => simp [sortDesc, ScoresSortedDesc]
  | cons x xs ih => exact insertDesc_sorted ih

/-! ## The guess-accumulation loop never adds an entry when it returns -/

theorem guessLoop_ok {rk : Rekog} {refresh : Bool}
    {acc out : List (String × (String × ℚ))} :
    ∀ {pf : List String} {st st' : DBState},
    guessLoop rk st refresh acc pf = (.ok out, st') → out = acc := by
  intro pf
  induction pf with
  | nil =>
    intro st st' h
    simp only [guessLoop, Prod.mk.injEq, Res.ok.injEq] at h
    exact h.1.symm
  | cons fid rest ih =>
    intro st st' h
    simp only [guessLoop] at h
    split at h
    · exact absurd h (by simp)
    · split at h
      · exact ih h
      · exact absurd h (by simp)

/-- C1: for a Person with confirmed faces A and B and an unconfirmed
candidate C with similarity 0.8 to A and 0.6 to B, the claim expects
`getFaces(guess=true)` to return C with score 0.7.  The code instead
raises: the filter `if not x.person` (src/fldb.py:166) is evaluated on the
`(Face, similarity)` tuple rather than its Face element, so the call dies
with `AttributeError('person')` on the very first non-empty similarity
list (and the normalization loop at src/fldb.py:171-172 would in any case
only rebind its loop variable, never storing the divided score). -/
theorem c1_aggregation_crash :
    person_get_faces rekogEmpty stC1 "P" true false =
      (.err (.attributeError "person"), stC1) := rfl

/-- C2: a candidate face already confirmed to a different person never
appears in the guessed portion of `Person.get_faces(guess=True)`.  This
holds (degenerately): whenever the guess-accumulation phase completes
without raising, its accumulator is empty, so no candidate at all — in
particular none confirmed elsewhere — is ever guessed. -/
theorem c2_confirmed_exclusion (rk : Rekog) (st : DBState)
    (name : String) (refresh : Bool)
    (out : List (String × (String × ℚ))) (st' : DBState) (c q : String)
    (h : person_guessed_portion rk st name refresh = (.ok out, st'))
    (hc : facePersonOf st c = some q) (hq : q ≠ name) :
    dlookup out c = none := by
  rw [person_guessed_portion] at h
  split at h
  · exact absurd h (by simp)
  · rw [guessLoop_ok h]
    rfl

/-- Witness for C2 at a concrete state. -/
theorem c2_confirmed_exclusion_witness :
    person_guessed_portion rekogEmpty stW "P" false = (.ok [], stW) ∧
    facePersonOf stW "c" = some "Q" ∧ ("Q" : String) ≠ "P" ∧
    dlookup ([] : List (String × (String × ℚ))) "c" = none :=
  ⟨by decide, by decide, by decide,
   c2_confirmed_exclusion rekogEmpty stW "P" false [] stW "c" "Q"
     (by decide) (by decide) (by decide)⟩

/-- C3: whenever `Person.get_faces` returns a list, that list is sorted by
score descending; and for a person with zero confirmed faces it returns
the empty list without raising, for either value of `guess` (and leaves
the state untouched). -/
theorem c3_sorted_and_empty :
    (∀ rk st name guess refresh out st',
       person_get_faces rk st name guess refresh = (.ok out, st') →
       ScoresSortedDesc out) ∧
    (∀ rk st name guess refresh,
       dlookup st.persons name = some [] →
       person_get_faces rk st name guess refresh = (.ok [], st)) := by
  constructor
  · intro rk st name guess refresh out st' h
    rw [person_get_faces] at h
    split at h
    · exact absurd h (by simp)
    · split at h
      · split at h
        · exact absurd h (by simp)
        · simp only [Prod.mk.injEq, Res.ok.injEq] at h
          rw [← h.1]
          exact sortDesc_sorted _
      · simp only [Prod.mk.injEq, Res.ok.injEq] at h
        rw [← h.1]
        exact sortDesc_sorted _
  · intro rk st name guess refresh hl
    cases guess <;>
      simp [person_get_faces, person_guessed_portion, hl, guessLoop,
        confirmedOverlay, sortDesc]

/-- Witness for C3 at concrete inputs: a successful call's output is
sorted, and a person with no confirmed faces yields the empty list. -/
theorem c3_sorted_and_empty_witness :
    ScoresSortedDesc [("f", 1)] ∧
    person_get_faces rekogEmpty stW "P" true false = (.ok [], stW) :=
  ⟨c3_sorted_and_empty.1 rekogEmpty stC3w "P" true false
     [("f", 1)] stC3w rfl,
   c3_sorted_and_empty.2 rekogEmpty stW "P" true false (by decide)⟩

/-- C4: against a collaborator whose full face listing is two pages of 2
and 1 records, `list_faces(refresh=True)` yields only the 2 keys of the
first page — the source makes a single listing call and never follows the
next-page token (`# TODO handle NextToken`, src/fldb.py:60) — not the
3-element key set the claim requires. -/
theorem c4_pagination_missing :
    (list_faces rkC4 dbInit true).1 = .ok ["f1", "f2"] ∧
    rkC4.listPages.map List.length = [2, 1] := by decide

/-- C5: on a confirmed face `get_person` returns `[(person, 1.0)]` as
claimed; but on an unconfirmed face with a non-empty similarity list it
raises `AttributeError('persom')` — the filter at src/fldb.py:147 spells
the attribute `persom` — instead of returning the (person, similarity)
pairs of the confirmed similar faces. -/
theorem c5_get_person_crash :
    face_get_person rekogEmpty stC5 "D" = (.ok [("p", 1)], stC5) ∧
    face_get_person rekogEmpty stC5 "A" =
      (.err (.attributeError "persom"), stC5) := ⟨rfl, rfl⟩

/-- C6 counterexample: when detection returns an empty face list, the
truthiness test `if self.faces:` treats the cached `[]` as an unpopulated
cache, so a second `get_faces()` call triggers a second detection call —
refuting "exactly one detection-collaborator call over the Image's
lifetime ... including when the detection result is an empty list". -/
theorem c6_cache_counterexample :
    stImg.detectCalls = 0 ∧
    (image_get_faces rekogEmpty stImg "u").1 = .ok [] ∧
    ((image_get_faces rekogEmpty
        (image_get_faces rekogEmpty stImg "u").2 "u").2).detectCalls = 2 := by
  decide

/-- C8: registering a person twice under one name always fails on the
second call with the already-exists assertion, leaving the person mapping
unchanged (the failing call returns the state it was given); and
`get_person(name, create=True)` is idempotent — it never fails, and a
repeated call returns the same person and the same state. -/
theorem c8_registration :
    (∀ st name, add_person (add_person st name).2 name =
       (.err .alreadyExists, (add_person st name).2)) ∧
    (∀ st name, ∃ p st1,
       get_person st name true = (.ok p, st1) ∧
       get_person st1 name true = (.ok p, st1)) := by
  constructor
  · intro st name
    cases hl : dlookup st.persons name with
    | none => simp [add_person, hl, dlookup_dinsert_self]
    | some pf => simp [add_person, hl]
  · intro st name
    cases hl : dlookup st.persons name with
    | none =>
      refine ⟨name, { st with persons := dinsert st.persons name [] }, ?_, ?_⟩
      · simp [get_person, add_person, hl]
      · simp [get_person, dlookup_dinsert_self]
    | some pf =>
      refine ⟨name, st, ?_, ?_⟩ <;> simp [get_person, hl]

/-- C9: the claim says `search_faces` resolves or creates each matched face
via `get_face(create=True)` and returns `(face, raw/100)`.  The division
by 100 is indeed applied exactly once at this boundary (second conjunct:
raw 90 becomes 9/10 when the matched face already exists), but creating a
missing matched face crashes: `get_face` hands the inner `x['Face']`
record to `Face.__init__`, which subscripts it with `'Face'` again
(src/fldb.py:95, 121), raising `KeyError('Face')` (first conjunct). -/
theorem c9_search_boundary :
    search_faces rkSearchB stA "A" =
      (.err (.keyError "Face"), { stA with searchCalls := 1 }) ∧
    (search_faces rkSearchB stAB "A").1 = .ok [("B", 90/100)] ∧
    (90 : ℚ)/100 = 9/10 := ⟨rfl, rfl, by norm_num⟩

/-- C10 counterexample: when the wrapping of a search result raises (here:
a match whose face is unregistered, so creation dies with
`KeyError('Face')`), the cache assignment is never reached, and a second
`get_similar(refresh=False)` call contacts the collaborator again — two
comparison calls within the face's lifetime, refuting the claimed
at-most-one bound. -/
theorem c10_cache_counterexample :
    stA.searchCalls = 0 ∧
    ((face_get_similar rkSearchB
        (face_get_similar rkSearchB stA "A" false).2 "A" false).2).searchCalls
      = 2 := by decide

/-! ## What each operation can touch -/

theorem onlyImages_refl (s : DBState) : OnlyImagesChanged s s :=
  ⟨rfl, rfl, rfl, rfl⟩

theorem onlyImages_trans {s1 s2 s3 : DBState} (h : OnlyImagesChanged s1 s2)
    (h' : OnlyImagesChanged s2 s3) : OnlyImagesChanged s1 s3 :=
  ⟨h'.1.trans h.1, h'.2.1.trans h.2.1, h'.2.2.1.trans h.2.2.1,
   h'.2.2.2.trans h.2.2.2⟩

theorem add_image_noindex_oic (st : DBState) (url : String) :
    OnlyImagesChanged st (add_image_noindex st url).2 := by
  rw [add_image_noindex]
  split <;> exact ⟨rfl, rfl, rfl, rfl⟩

theorem get_image_oic (st : DBState) (url : String) (c : Bool) :
    OnlyImagesChanged st (get_image st url c).2 := by
  rw [get_image]
  split
  · exact add_image_noindex_oic st url
  · split <;> exact ⟨rfl, rfl, rfl, rfl⟩

theorem face_mk_oic (st : DBState) (d : RawData) (i : Option String) :
    OnlyImagesChanged st (face_mk st d i).2 := by
  rw [face_mk]
  split
  · exact onlyImages_refl st
  · split
    · exact onlyImages_refl st
    · split
      · exact onlyImages_refl st
      · split
        · exact onlyImages_refl st
        · rename_i ext hext
          split <;> rename_i hgi
          · have h := get_image_oic st ext true
            rw [hgi] at h
            exact h
          · have h := get_image_oic st ext true
            rw [hgi] at h
            exact h

theorem index_wrap_oic : ∀ (l : List RawData) (st : DBState),
    OnlyImagesChanged st (index_wrap st l).2 := by
  intro l
  induction l with
  | nil => intro st; exact onlyImages_refl st
  | cons x rest ih =>
    intro st
    rw [index_wrap]
    split
    · rename_i hmk
      have h := face_mk_oic st x none
      rw [hmk] at h
      exact h
    · rename_i obj st2 hmk
      have h1 := face_mk_oic st x none
      rw [hmk] at h1
      split <;> rename_i hiw
      · have h2 := ih st2
        rw [hiw] at h2
        exact onlyImages_trans h1 h2
      · have h2 := ih st2
        rw [hiw] at h2
        exact onlyImages_trans h1 h2

theorem index_faces_fields (rk : Rekog) (st : DBState) (url : String) :
    ((index_faces rk st url).2).persons = st.persons ∧
    ((index_faces rk st url).2).faces = st.faces ∧
    ((index_faces rk st url).2).detectCalls = st.detectCalls + 1 ∧
    ((index_faces rk st url).2).searchCalls = st.searchCalls := by
  have h := index_wrap_oic (rk.indexResp url)
    { st with detectCalls := st.detectCalls + 1 }
  exact ⟨h.1, h.2.1, h.2.2.1, h.2.2.2⟩

/-- C6 (amended): when the first `Image.get_faces()` call returns a
non-empty face list, every later call returns the same cached value and
makes no further detection call (the state is unchanged, so by induction
exactly one detection call happens over the image's lifetime); moreover a
call from an unpopulated cache makes exactly one detection call, and any
call makes at most one.  (The unamended claim fails exactly when detection
returns the empty list, see the counterexample.) -/
theorem c6_cache_amended (rk : Rekog) (st : DBState) (url : String)
    (out : List FaceObj) (st' : DBState)
    (h : image_get_faces rk st url = (.ok out, st')) (hne : out ≠ []) :
    image_get_faces rk st' url = (.ok out, st') ∧
    (dlookup st.images url = some none →
      st'.detectCalls = st.detectCalls + 1) ∧
    st'.detectCalls ≤ st.detectCalls + 1 := by
  rw [image_get_faces] at h
  split at h
  · exact absurd h (by simp)
  · rename_i cache hcache
    split at h
    · rename_i a l
      simp only [Prod.mk.injEq, Res.ok.injEq] at h
      obtain ⟨h1, h2⟩ := h
      subst h2
      refine ⟨?_, ?_, Nat.le_succ _⟩
      · rw [image_get_faces, hcache]
        show (Res.ok (a :: l), st) = (Res.ok out, st)
        rw [h1]
      · intro hx
        rw [hcache] at hx
        exact absurd hx (by simp)
    · split at h
      · exact absurd h (by simp)
      · rename_i objs st2 hidx
        simp only [Prod.mk.injEq, Res.ok.injEq] at h
        obtain ⟨h1, h2⟩ := h
        have hfields := index_faces_fields rk st url
        rw [hidx] at hfields
        have hlook : dlookup st'.images url = some (some objs) := by
          rw [← h2]
          exact dlookup_dinsert_self st2.images url (some objs)
        have hdet : st'.detectCalls = st.detectCalls + 1 := by
          rw [← h2]
          exact hfields.2.2.1
        refine ⟨?_, fun _ => hdet, le_of_eq hdet⟩
        rw [image_get_faces, hlook]
        cases objs with
        | nil => exact absurd h1.symm hne
        | cons a l =>
            show (Res.ok (a :: l), st') = (Res.ok out, st')
            rw [h1]

/-- Witness for the amended C6 at a concrete run: one detected face, the
second call returns the cached value with no further detection call. -/
theorem c6_cache_amended_witness :
    image_get_faces rkDetectOne stImg "u" = (.ok outC6, stC6done) ∧
    outC6 ≠ [] ∧
    (image_get_faces rkDetectOne stC6done "u" = (.ok outC6, stC6done) ∧
     (dlookup stImg.images "u" = some none →
       stC6done.detectCalls = stImg.detectCalls + 1) ∧
     stC6done.detectCalls ≤ stImg.detectCalls + 1) :=
  ⟨by decide, by decide,
   c6_cache_amended rkDetectOne stImg "u" outC6 stC6done (by decide) (by decide)⟩

theorem pyKey_ok {α : Type} {v : Option α} {k : String} {a : α}
    (h : pyKey v k = .ok a) : v = some a := by
  cases v with
  | none => exact absurd h (by simp [pyKey])
  | some b =>
    simp only [pyKey, Res.ok.injEq] at h
    rw [h]

theorem face_mk_ok {st : DBState} {d : RawData} {i : Option String}
    {obj : FaceObj} {st' : DBState} (h : face_mk st d i = (.ok obj, st')) :
    obj.person = none ∧
    ∃ inner, d.getFace = some inner ∧ inner.getFaceId = some obj.fid := by
  rw [face_mk] at h
  split at h
  · exact absurd h (by simp)
  · rename_i inner hinner
    split at h
    · exact absurd h (by simp)
    · rename_i fid hfid
      split at h
      · simp only [Prod.mk.injEq, Res.ok.injEq] at h
        refine ⟨by rw [← h.1], inner, pyKey_ok hinner, ?_⟩
        rw [← h.1]
        exact pyKey_ok hfid
      · split at h
        · exact absurd h (by simp)
        · split at h
          · exact absurd h (by simp)
          · simp only [Prod.mk.injEq, Res.ok.injEq] at h
            refine ⟨by rw [← h.1], inner, pyKey_ok hinner, ?_⟩
            rw [← h.1]
            exact pyKey_ok hfid

theorem facesExtend_refl (s : DBState) : FacesExtend s s :=
  ⟨rfl, rfl, rfl, fun _ _ h => h, fun _ _ h => Or.inl h⟩

theorem facesExtend_trans {s1 s2 s3 : DBState} (h : FacesExtend s1 s2)
    (h' : FacesExtend s2 s3) : FacesExtend s1 s3 := by
  refine ⟨h'.1.trans h.1, h'.2.1.trans h.2.1, h'.2.2.1.trans h.2.2.1,
    fun k o hk => h'.2.2.2.1 k o (h.2.2.2.1 k o hk), fun k o' hk => ?_⟩
  rcases h'.2.2.2.2 k o' hk with h2 | ⟨h2, h3⟩
  · rcases h.2.2.2.2 k o' h2 with h4 | ⟨h4, h5⟩
    · exact Or.inl h4
    · exact Or.inr ⟨h4, h5⟩
  · cases hs1 : dlookup s1.faces k with
    | none => exact Or.inr ⟨rfl, h3⟩
    | some o => exact absurd (h.2.2.2.1 k o hs1) (by rw [h2]; simp)

theorem oic_facesExtend {s s' : DBState} (h : OnlyImagesChanged s s') :
    FacesExtend s s' :=
  ⟨h.1, h.2.2.1, h.2.2.2, fun k o hk => by rw [h.2.1]; exact hk,
   fun k o' hk => Or.inl (by rw [← h.2.1]; exact hk)⟩

theorem get_face_create_ext (st : DBState) (fid : String)
    (d : Option RawData) (c : Bool) :
    FacesExtend st (get_face_create st fid d c).2 := by
  rw [get_face_create.eq_def]
  split
  · split
    · rename_i hcond
      split
      · rename_i hmk
        have h := face_mk_oic st (by assumption) none
        rw [hmk] at h
        exact oic_facesExtend h
      · rename_i obj st2 hmk
        have hoic := face_mk_oic st (by assumption) none
        rw [hmk] at hoic
        have hobj := face_mk_ok hmk
        refine ⟨hoic.1, hoic.2.2.1, hoic.2.2.2, ?_, ?_⟩
        · intro k o hk
          have hk2 : dlookup st2.faces k = some o := by
            rw [hoic.2.1]; exact hk
          have hne : ¬ fid = k := by
            intro he
            rw [he] at hcond
            rw [hcond.2] at hk
            exact absurd hk (by simp)
          rw [dlookup_dinsert_ne st2.faces fid k obj hne]
          exact hk2
        · intro k o' hk
          by_cases he : fid = k
          · subst he
            rw [dlookup_dinsert_self] at hk
            refine Or.inr ⟨hcond.2, ?_⟩
            cases hk
            exact hobj.1
          · rw [dlookup_dinsert_ne st2.faces fid k obj he] at hk
            rw [hoic.2.1] at hk
            exact Or.inl hk
    · exact facesExtend_refl st
  · exact facesExtend_refl st

theorem get_face_ext (st : DBState) (f : Option String) (d : Option RawData)
    (c : Bool) : FacesExtend st (get_face st f d c).2 := by
  rw [get_face]
  split
  · exact facesExtend_refl st
  · rename_i fid hfid
    split
    · rename_i hcr
      have h := get_face_create_ext st fid d c
      rw [hcr] at h
      exact h
    · rename_i u st2 hcr
      have h := get_face_create_ext st fid d c
      rw [hcr] at h
      split <;> exact h

theorem search_wrap_ext : ∀ (l : List RawData) (st : DBState),
    FacesExtend st (search_wrap st l).2 := by
  intro l
  induction l with
  | nil => intro st; exact facesExtend_refl st
  | cons x rest ih =>
    intro st
    rw [search_wrap]
    split
    · exact facesExtend_refl st
    · rename_i inner hinner
      split
      · rename_i hgf
        have h := get_face_ext st none (some inner) true
        rw [hgf] at h
        exact h
      · rename_i obj st2 hgf
        have h1 := get_face_ext st none (some inner) true
        rw [hgf] at h1
        split
        · exact h1
        · rename_i raw hraw
          split <;> rename_i hw
          · have h2 := ih st2
            rw [hw] at h2
            exact facesExtend_trans h1 h2
          · have h2 := ih st2
            rw [hw] at h2
            exact facesExtend_trans h1 h2

theorem search_faces_effects (rk : Rekog) (st : DBState) (fid : String) :
    ((search_faces rk st fid).2).persons = st.persons ∧
    ((search_faces rk st fid).2).detectCalls = st.detectCalls ∧
    ((search_faces rk st fid).2).searchCalls = st.searchCalls + 1 ∧
    (∀ k o, dlookup st.faces k = some o →
       dlookup ((search_faces rk st fid).2).faces k = some o) ∧
    (∀ k o', dlookup ((search_faces rk st fid).2).faces k = some o' →
       dlookup st.faces k = some o' ∨
       (dlookup st.faces k = none ∧ o'.person = none)) := by
  have h := search_wrap_ext (rk.searchResp fid)
    { st with searchCalls := st.searchCalls + 1 }
  exact ⟨h.1, h.2.1, h.2.2.1, h.2.2.2.1, h.2.2.2.2⟩

/-- C10 (amended): once a `get_similar(refresh=False)` call completes
without raising — in particular when the result is the empty list, since
the cache test is `self.similar is None`, not truthiness — every later
`refresh=False` call returns the same cached result with the state
unchanged, hence without recontacting the collaborator; and any single
call makes at most one comparison-collaborator search call.  (The
unamended per-lifetime bound fails when result wrapping raises after the
collaborator call, see the counterexample.) -/
theorem c10_similar_cache_amended (rk : Rekog) (st : DBState) (fid : String)
    (out : List (String × ℚ)) (st' : DBState)
    (h : face_get_similar rk st fid false = (.ok out, st')) :
    face_get_similar rk st' fid false = (.ok out, st') ∧
    st'.searchCalls ≤ st.searchCalls + 1 := by
  rw [face_get_similar] at h
  split at h
  · exact absurd h (by simp)
  · rename_i f hf
    split at h
    · rename_i cached hsim
      rw [if_neg (by simp)] at h
      simp only [Prod.mk.injEq, Res.ok.injEq] at h
      obtain ⟨h1, h2⟩ := h
      subst h2
      refine ⟨?_, Nat.le_succ _⟩
      simp [face_get_similar, hf, hsim, h1]
    · split at h
      · exact absurd h (by simp)
      · rename_i sims st2 hsf
        simp only [Prod.mk.injEq, Res.ok.injEq] at h
        obtain ⟨h1, h2⟩ := h
        have heff := search_faces_effects rk st fid
        rw [hsf] at heff
        have hf2 : dlookup st2.faces fid = some f := heff.2.2.2.1 fid f hf
        have hlook : dlookup st'.faces fid =
            some { f with similar := some sims } := by
          rw [← h2, setSimilar]
          show dlookup (dmodify st2.faces fid _) fid = _
          rw [dlookup_dmodify_self, hf2]
          rfl
        have hsc : st'.searchCalls = st.searchCalls + 1 := by
          rw [← h2]
          exact heff.2.2.1
        refine ⟨?_, le_of_eq hsc⟩
        simp [face_get_similar, hlook, h1]

/-- Witness for the amended C10 at a concrete run: an empty search result
is cached and the second call returns it from the cache with the state
(and hence the search-call counter) unchanged. -/
theorem c10_similar_cache_amended_witness :
    face_get_similar rekogEmpty stA "A" false = (.ok [], stA1) ∧
    (face_get_similar rekogEmpty stA1 "A" false = (.ok [], stA1) ∧
     stA1.searchCalls ≤ stA.searchCalls + 1) :=
  ⟨by decide,
   c10_similar_cache_amended rekogEmpty stA "A" [] stA1 (by decide)⟩

/-! ## Preservation of the confirmation invariant (claim C7) -/

theorem personRel_self (v : Option FaceObj) : personRel v v := by
  cases v <;> simp [personRel]

theorem personRel_trans {a b c : Option FaceObj} (h : personRel a b)
    (h' : personRel b c) : personRel a c := by
  cases a <;> cases b <;> cases c <;> simp_all [personRel]

theorem auxOK_refl (s : DBState) : AuxOK s s :=
  ⟨rfl, fun fid => personRel_self (dlookup s.faces fid)⟩

theorem auxOK_trans {s1 s2 s3 : DBState} (h : AuxOK s1 s2)
    (h' : AuxOK s2 s3) : AuxOK s1 s3 :=
  ⟨h'.1.trans h.1, fun fid => personRel_trans (h.2 fid) (h'.2 fid)⟩

theorem auxOK_of_eq {s s' : DBState} (hp : s'.persons = s.persons)
    (hf : s'.faces = s.faces) : AuxOK s s' :=
  ⟨hp, fun fid => by rw [hf]; exact personRel_self (dlookup s.faces fid)⟩

theorem auxOK_of_faces_rel {s s' : DBState} (hp : s'.persons = s.persons)
    (h4 : ∀ k o, dlookup s.faces k = some o → dlookup s'.faces k = some o)
    (h5 : ∀ k o', dlookup s'.faces k = some o' →
       dlookup s.faces k = some o' ∨
       (dlookup s.faces k = none ∧ o'.person = none)) : AuxOK s s' := by
  refine ⟨hp, fun fid => ?_⟩
  cases h2 : dlookup s'.faces fid with
  | none =>
    cases h1 : dlookup s.faces fid with
    | none => simp [personRel]
    | some o =>
      have := h4 fid o h1
      rw [h2] at this
      exact absurd this (by simp)
  | some o' =>
    rcases h5 fid o' h2 with h1 | ⟨h1, h3⟩
    · rw [h1]; simp [personRel]
    · rw [h1]; simp [personRel, h3]

theorem facesExtend_auxOK {s s' : DBState} (h : FacesExtend s s') :
    AuxOK s s' :=
  auxOK_of_faces_rel h.1 h.2.2.2.1 h.2.2.2.2

theorem search_faces_aux (rk : Rekog) (st : DBState) (fid : String) :
    AuxOK st (search_faces rk st fid).2 := by
  have h := search_faces_effects rk st fid
  exact auxOK_of_faces_rel h.1 h.2.2.2.1 h.2.2.2.2

theorem setSimilar_aux (st : DBState) (fid : String)
    (sims : List (String × ℚ)) : AuxOK st (setSimilar st fid sims) := by
  refine ⟨rfl, fun k => ?_⟩
  by_cases he : fid = k
  · subst he
    show personRel (dlookup st.faces fid) (dlookup (dmodify st.faces fid _) fid)
    rw [dlookup_dmodify_self]
    cases dlookup st.faces fid with
    | none => simp [personRel]
    | some o => simp [personRel]
  · show personRel (dlookup st.faces k) (dlookup (dmodify st.faces fid _) k)
    rw [dlookup_dmodify_ne _ _ _ _ he]
    exact personRel_self (dlookup st.faces k)

theorem face_get_similar_aux (rk : Rekog) (st : DBState) (fid : String)
    (r : Bool) : AuxOK st (face_get_similar rk st fid r).2 := by
  rw [face_get_similar]
  split
  · exact auxOK_refl st
  · split
    · split
      · split <;> rename_i hsf
        · have h := search_faces_aux rk st fid
          rw [hsf] at h
          exact h
        · rename_i sims st2
          have h := search_faces_aux rk st fid
          rw [hsf] at h
          exact auxOK_trans h (setSimilar_aux st2 fid sims)
      · exact auxOK_refl st
    · split <;> rename_i hsf
      · have h := search_faces_aux rk st fid
        rw [hsf] at h
        exact h
      · rename_i sims st2
        have h := search_faces_aux rk st fid
        rw [hsf] at h
        exact auxOK_trans h (setSimilar_aux st2 fid sims)

theorem face_get_person_aux (rk : Rekog) (st : DBState) (fid : String) :
    AuxOK st (face_get_person rk st fid).2 := by
  rw [face_get_person]
  split
  · exact auxOK_refl st
  · split
    · exact auxOK_refl st
    · split <;> rename_i hgs
      · have h := face_get_similar_aux rk st fid false
        rw [hgs] at h
        exact h
      · have h := face_get_similar_aux rk st fid false
        rw [hgs] at h
        split <;> exact h

theorem guessLoop_aux (rk : Rekog) (refresh : Bool)
    (acc : List (String × (String × ℚ))) :
    ∀ (pf : List String) (st : DBState),
    AuxOK st (guessLoop rk st refresh acc pf).2 := by
  intro pf
  induction pf with
  | nil => intro st; exact auxOK_refl st
  | cons fid rest ih =>
    intro st
    rw [guessLoop]
    split <;> rename_i hgs
    · have h := face_get_similar_aux rk st fid refresh
      rw [hgs] at h
      exact h
    · rename_i sims st2
      have h := face_get_similar_aux rk st fid refresh
      rw [hgs] at h
      split
      · exact auxOK_trans h (ih st2)
      · exact h

theorem person_guessed_portion_aux (rk : Rekog) (st : DBState)
    (name : String) (r : Bool) :
    AuxOK st (person_guessed_portion rk st name r).2 := by
  rw [person_guessed_portion]
  split
  · exact auxOK_refl st
  · exact guessLoop_aux rk r [] _ st

theorem person_get_faces_aux (rk : Rekog) (st : DBState) (name : String)
    (g r : Bool) : AuxOK st (person_get_faces rk st name g r).2 := by
  rw [person_get_faces]
  split
  · exact auxOK_refl st
  · split
    · split <;> rename_i hpp
      · have h := person_guessed_portion_aux rk st name r
        rw [hpp] at h
        exact h
      · have h := person_guessed_portion_aux rk st name r
        rw [hpp] at h
        exact h
    · exact auxOK_refl st

theorem image_get_faces_pf (rk : Rekog) (st : DBState) (url : String) :
    ((image_get_faces rk st url).2).persons = st.persons ∧
    ((image_get_faces rk st url).2).faces = st.faces := by
  rw [image_get_faces]
  split
  · exact ⟨rfl, rfl⟩
  · split
    · exact ⟨rfl, rfl⟩
    · split <;> rename_i hidx
      · have h := index_faces_fields rk st url
        rw [hidx] at h
        exact ⟨h.1, h.2.1⟩
      · have h := index_faces_fields rk st url
        rw [hidx] at h
        exact ⟨h.1, h.2.1⟩

theorem add_image_noindex_ok {st : DBState} {url u : String} {st' : DBState}
    (h : add_image_noindex st url = (.ok u, st')) :
    st' = { st with images := dinsert st.images url none } ∧
    dlookup st.images url = none := by
  rw [add_image_noindex] at h
  split at h
  · exact absurd h (by simp)
  · rename_i hn
    simp only [Prod.mk.injEq, Res.ok.injEq] at h
    exact ⟨h.2.symm, hn⟩

theorem index_wrap_objs :
    ∀ {l : List RawData} {st : DBState} {objs : List FaceObj} {st' : DBState},
    index_wrap st l = (.ok objs, st') →
    ∀ o ∈ objs, o.person = none ∧
      ∃ r ∈ l, ∃ i, r.getFace = some i ∧ i.getFaceId = some o.fid := by
  intro l
  induction l with
  | nil =>
    intro st objs st' h o ho
    simp only [index_wrap, Prod.mk.injEq, Res.ok.injEq] at h
    rw [← h.1] at ho
    exact absurd ho (List.not_mem_nil o)
  | cons x rest ih =>
    intro st objs st' h o ho
    rw [index_wrap] at h
    split at h
    · exact absurd h (by simp)
    · rename_i obj st2 hmk
      split at h
      · exact absurd h (by simp)
      · rename_i tl st3 hiw
        simp only [Prod.mk.injEq, Res.ok.injEq] at h
        rw [← h.1] at ho
        rcases List.mem_cons.mp ho with he | ht
        · subst he
          obtain ⟨hper, inner, hi1, hi2⟩ := face_mk_ok hmk
          exact ⟨hper, x, List.mem_cons_self x rest, inner, hi1, hi2⟩
        · obtain ⟨hper, r, hr, inner, hi1, hi2⟩ := ih hiw o ht
          exact ⟨hper, r, List.mem_cons_of_mem x hr, inner, hi1, hi2⟩

theorem image_get_faces_objs {rk : Rekog} {st : DBState} {url : String}
    {objs : List FaceObj} {st' : DBState}
    (hcache : dlookup st.images url = some none)
    (h : image_get_faces rk st url = (.ok objs, st')) :
    ∀ o ∈ objs, o.person = none ∧
      ∃ r ∈ rk.indexResp url, ∃ i, r.getFace = some i ∧
        i.getFaceId = some o.fid := by
  simp only [image_get_faces, hcache] at h
  split at h
  · exact absurd h (by simp)
  · rename_i objs2 st2 hidx
    simp only [Prod.mk.injEq, Res.ok.injEq] at h
    rw [← h.1]
    rw [index_faces] at hidx
    exact index_wrap_objs hidx

theorem foldl_reg_rel (base : List (String × FaceObj)) :
    ∀ (objs : List FaceObj) (m : List (String × FaceObj)),
    (∀ o ∈ objs, o.person = none ∧ dlookup base o.fid = none) →
    (∀ k, personRel (dlookup base k) (dlookup m k)) →
    ∀ k, personRel (dlookup base k)
      (dlookup (objs.foldl (fun m x => dinsert m x.fid x) m) k) := by
  intro objs
  induction objs with
  | nil => intro m _ hm k; exact hm k
  | cons o rest ih =>
    intro m hobjs hm k
    show personRel (dlookup base k)
      (dlookup (rest.foldl (fun m x => dinsert m x.fid x) (dinsert m o.fid o)) k)
    refine ih (dinsert m o.fid o) (fun o' ho' => hobjs o' (List.mem_cons_of_mem o ho')) ?_ k
    intro k'
    by_cases he : o.fid = k'
    · subst he
      rw [dlookup_dinsert_self]
      obtain ⟨hper, hbase⟩ := hobjs o (List.mem_cons_self o rest)
      rw [hbase]
      simp [personRel, hper]
    · rw [dlookup_dinsert_ne _ _ _ _ he]
      exact hm k'

theorem add_image_aux (rk : Rekog) (st : DBState) (url : String)
    (idx : Bool) (hfresh : IndexFresh rk st url) :
    AuxOK st (add_image rk st url idx).2 := by
  rw [add_image]
  split <;> rename_i hni
  · have h := add_image_noindex_oic st url
    rw [hni] at h
    exact auxOK_of_eq h.1 h.2.1
  · rename_i u st1
    obtain ⟨hst1, hfree⟩ := add_image_noindex_ok hni
    have h1 := add_image_noindex_oic st url
    rw [hni] at h1
    split
    · split <;> rename_i hig
      · have h2 := image_get_faces_pf rk st1 url
        rw [hig] at h2
        exact auxOK_of_eq (h2.1.trans h1.1) (h2.2.trans h1.2.1)
      · rename_i objs st2
        have h2 := image_get_faces_pf rk st1 url
        rw [hig] at h2
        have hc1 : dlookup st1.images url = some none := by
          rw [hst1]
          exact dlookup_dinsert_self st.images url none
        have hobjs := image_get_faces_objs hc1 hig
        refine ⟨?_, ?_⟩
        · show st2.persons = st.persons
          exact h2.1.trans h1.1
        · intro k
          show personRel (dlookup st.faces k)
            (dlookup (objs.foldl (fun m x => dinsert m x.fid x) st2.faces) k)
          refine foldl_reg_rel st.faces objs st2.faces ?_ ?_ k
          · intro o ho
            obtain ⟨hper, r, hr, inner, hi1, hi2⟩ := hobjs o ho
            exact ⟨hper, hfresh r hr inner hi1 o.fid hi2⟩
          · intro k'
            rw [h2.2, h1.2.1]
            exact personRel_self (dlookup st.faces k')
    · exact auxOK_of_eq h1.1 h1.2.1

theorem aux_preserves_inv {s s' : DBState} (ha : AuxOK s s')
    (hinv : ConfirmInv s) : ConfirmInv s' := by
  obtain ⟨hp, hr⟩ := ha
  constructor
  · intro n pf fid hm hmem
    rw [hp] at hm
    have hold := hinv.1 n pf fid hm hmem
    have h := hr fid
    rw [facePersonOf] at hold ⊢
    cases h1 : dlookup s.faces fid with
    | none => rw [h1] at hold; exact absurd hold (by simp)
    | some o =>
      rw [h1] at hold h
      cases h2 : dlookup s'.faces fid with
      | none => rw [h2] at h; exact absurd h (by simp [personRel])
      | some o' =>
        rw [h2] at h
        simp only [personRel] at h
        simp only [Option.bind] at hold ⊢
        rw [h]
        exact hold
  · intro fid n h
    have hrl := hr fid
    rw [facePersonOf] at h
    cases h2 : dlookup s'.faces fid with
    | none => rw [h2] at h; exact absurd h (by simp)
    | some o' =>
      rw [h2] at h hrl
      simp only [Option.bind] at h
      cases h1 : dlookup s.faces fid with
      | none =>
        rw [h1] at hrl
        simp only [personRel] at hrl
        rw [hrl] at h
        exact absurd h (by simp)
      | some o =>
        rw [h1] at hrl
        simp only [personRel] at hrl
        have hold : facePersonOf s fid = some n := by
          rw [facePersonOf, h1]
          simp only [Option.bind]
          rw [← hrl]
          exact h
        obtain ⟨pf, hpf, hmem⟩ := hinv.2 fid n hold
        exact ⟨pf, by rw [hp]; exact hpf, hmem⟩

theorem inv_persons_insert_fresh {st : DBState} (hinv : ConfirmInv st)
    {n : String} (hnone : dlookup st.persons n = none) :
    ConfirmInv { st with persons := dinsert st.persons n [] } := by
  constructor
  · intro m pf fid hm hmem
    have hm' : dlookup (dinsert st.persons n []) m = some pf := hm
    by_cases he : n = m
    · subst he
      rw [dlookup_dinsert_self] at hm'
      injection hm' with hpf
      rw [← hpf] at hmem
      exact absurd hmem (List.not_mem_nil fid)
    · rw [dlookup_dinsert_ne _ _ _ _ he] at hm'
      show facePersonOf st fid = some m
      exact hinv.1 m pf fid hm' hmem
  · intro fid m h
    have h' : facePersonOf st fid = some m := h
    obtain ⟨pf, hpf, hmem⟩ := hinv.2 fid m h'
    by_cases he : n = m
    · subst he
      rw [hnone] at hpf
      exact absurd hpf (by simp)
    · refine ⟨pf, ?_, hmem⟩
      show dlookup (dinsert st.persons n []) m = some pf
      rw [dlookup_dinsert_ne _ _ _ _ he]
      exact hpf

theorem add_person_inv {st : DBState} (hinv : ConfirmInv st) (n : String) :
    ConfirmInv (add_person st n).2 := by
  rw [add_person]
  split
  · exact hinv
  · rename_i hnone
    exact inv_persons_insert_fresh hinv hnone

theorem get_person_inv {st : DBState} (hinv : ConfirmInv st) (n : String)
    (c : Bool) : ConfirmInv (get_person st n c).2 := by
  rw [get_person]
  split
  · exact add_person_inv hinv n
  · split <;> exact hinv

theorem set_person_inv {st : DBState} (hinv : ConfirmInv st)
    {fid n : String} (hf : dlookup st.faces fid ≠ none)
    (hp : dlookup st.persons n ≠ none) (hu : facePersonOf st fid = none) :
    ConfirmInv (set_person st fid n) := by
  obtain ⟨fobj, hfobj⟩ : ∃ o, dlookup st.faces fid = some o := by
    cases hcase : dlookup st.faces fid with
    | none => exact absurd hcase hf
    | some o => exact ⟨o, rfl⟩
  obtain ⟨pfn, hpfn⟩ : ∃ l, dlookup st.persons n = some l := by
    cases hcase : dlookup st.persons n with
    | none => exact absurd hcase hp
    | some l => exact ⟨l, rfl⟩
  have hgetd : (dlookup st.persons n).getD [] = pfn := by rw [hpfn]; rfl
  constructor
  · intro m pf fid' hm hmem
    have hm' : dlookup (dinsert st.persons n
        ((dlookup st.persons n).getD [] ++ [fid])) m = some pf := hm
    rw [hgetd] at hm'
    show (dlookup (dmodify st.faces fid
        (fun o => { o with person := some n })) fid').bind
        (fun o => o.person) = some m
    by_cases hem : n = m
    · subst hem
      rw [dlookup_dinsert_self] at hm'
      injection hm' with hpf
      rw [← hpf] at hmem
      rcases List.mem_append.mp hmem with hmem1 | hmem2
      · have hold := hinv.1 n pfn fid' hpfn hmem1
        have hne : ¬ fid = fid' := by
          intro he
          rw [← he] at hold
          rw [hu] at hold
          exact absurd hold (by simp)
        rw [dlookup_dmodify_ne _ _ _ _ hne]
        rw [facePersonOf] at hold
        exact hold
      · have he : fid' = fid := List.mem_singleton.mp hmem2
        subst he
        rw [dlookup_dmodify_self, hfobj]
        rfl
    · rw [dlookup_dinsert_ne _ _ _ _ hem] at hm'
      have hold := hinv.1 m pf fid' hm' hmem
      have hne : ¬ fid = fid' := by
        intro he
        rw [← he] at hold
        rw [hu] at hold
        exact absurd hold (by simp)
      rw [dlookup_dmodify_ne _ _ _ _ hne]
      rw [facePersonOf] at hold
      exact hold
  · intro fid' m h
    have h' : (dlookup (dmodify st.faces fid
        (fun o => { o with person := some n })) fid').bind
        (fun o => o.person) = some m := h
    by_cases hef : fid = fid'
    · subst hef
      rw [dlookup_dmodify_self, hfobj] at h'
      have hnm : n = m := by simpa using h'
      subst hnm
      refine ⟨pfn ++ [fid], ?_, ?_⟩
      · show dlookup (dinsert st.persons n
          ((dlookup st.persons n).getD [] ++ [fid])) n = some (pfn ++ [fid])
        rw [hgetd, dlookup_dinsert_self]
      · exact List.mem_append_right pfn (List.mem_singleton.mpr rfl)
    · rw [dlookup_dmodify_ne _ _ _ _ hef] at h'
      have hold : facePersonOf st fid' = some m := by
        rw [facePersonOf]; exact h'
      obtain ⟨pf, hpf, hmem⟩ := hinv.2 fid' m hold
      by_cases hem : n = m
      · subst hem
        rw [hpfn] at hpf
        injection hpf with hpf2
        refine ⟨pfn ++ [fid], ?_, ?_⟩
        · show dlookup (dinsert st.persons n
            ((dlookup st.persons n).getD [] ++ [fid])) n = some (pfn ++ [fid])
          rw [hgetd, dlookup_dinsert_self]
        · rw [← hpf2] at hmem
          exact List.mem_append_left [fid] hmem
      · refine ⟨pf, ?_, hmem⟩
        show dlookup (dinsert st.persons n
          ((dlookup st.persons n).getD [] ++ [fid])) m = some pf
        rw [hgetd, dlookup_dinsert_ne _ _ _ _ hem]
        exact hpf

theorem inv_init : ConfirmInv dbInit := by
  constructor
  · intro n pf fid hm hmem
    exact absurd hm (by simp [dbInit, dlookup])
  · intro fid n h
    exact absurd h (by simp [dbInit, facePersonOf, dlookup])

theorem reach_inv {rk : Rekog} {s : DBState} (h : Reach rk true s) :
    ConfirmInv s := by
  induction h with
  | init => exact inv_init
  | step hr hstep =>
    rename_i ih
    cases hstep with
    | addPerson n => exact add_person_inv ih n
    | getPerson n c => exact get_person_inv ih n c
    | addImage url idx hg =>
        exact aux_preserves_inv (add_image_aux rk _ url idx (hg rfl)) ih
    | getImage url c =>
        exact aux_preserves_inv
          (auxOK_of_eq (get_image_oic _ url c).1 (get_image_oic _ url c).2.1) ih
    | getFace f d c =>
        exact aux_preserves_inv (facesExtend_auxOK (get_face_ext _ f d c)) ih
    | getSimilar fid r =>
        exact aux_preserves_inv (face_get_similar_aux rk _ fid r) ih
    | getPersonOfFace fid =>
        exact aux_preserves_inv (face_get_person_aux rk _ fid) ih
    | personGetFaces n g r =>
        exact aux_preserves_inv (person_get_faces_aux rk _ n g r) ih
    | confirm fid n hf hp hs =>
        exact set_person_inv ih hf hp (hs rfl)

/-- C7 (amended): the cross-entity invariant `face.person == p ↔ face ∈
p.faces` holds in every state reachable by core operations provided no
already-confirmed face is re-confirmed (and no indexing registration reuses
an already-registered face id); each confirmation (`set_person` /
`add_face`) updates both sides in one atomic transition of the step
relation.  The unrestricted claim fails: re-confirming a face to a second
person leaves it in the first person's list (see the counterexample). -/
theorem c7_lockstep_amended (rk : Rekog) (s : DBState)
    (h : Reach rk true s) (fid n : String) :
    (∃ pf, dlookup s.persons n = some pf ∧ fid ∈ pf) ↔
      facePersonOf s fid = some n := by
  have hinv := reach_inv h
  constructor
  · rintro ⟨pf, hpf, hmem⟩
    exact hinv.1 n pf fid hpf hmem
  · intro hx
    exact hinv.2 fid n hx

/-- Witness for the amended C7: a concrete strict run (register person `p`,
register face `f`, confirm `f` to `p`) is reachable, and at it the
invariant instance holds. -/
theorem c7_lockstep_amended_witness :
    Reach rekogEmpty true sC7w ∧
    ((∃ pf, dlookup sC7w.persons "p" = some pf ∧ "f" ∈ pf) ↔
      facePersonOf sC7w "f" = some "p") := by
  have h1 : Reach rekogEmpty true (add_person dbInit "p").2 :=
    Reach.step Reach.init (Step.addPerson _ "p")
  have h2 := Reach.step h1
    (Step.getFace _ (some "f") (some (rawWrapped "f" "u")) true)
  have h3 : Reach rekogEmpty true sC7w :=
    Reach.step h2
      (Step.confirm _ "f" "p" (by decide) (by decide) (fun _ => by decide))
  exact ⟨h3, c7_lockstep_amended rekogEmpty sC7w h3 "f" "p"⟩

/-- C7 counterexample: the run that registers persons `p` and `q` and face
`f`, confirms `f` to `p`, then re-confirms `f` to `q` is reachable by core
operations, and in the resulting state `f` is still in `p`'s confirmed
list while `f.person` is `q` — the claimed equivalence fails at `(p, f)`. -/
theorem c7_lockstep_counterexample :
    Reach rekogEmpty false sC7 ∧
    dlookup sC7.persons "p" = some ["f"] ∧
    facePersonOf sC7 "f" = some "q" ∧
    ¬ facePersonOf sC7 "f" = some "p" := by
  refine ⟨?_, by decide, by decide, by decide⟩
  have h1 : Reach rekogEmpty false (add_person dbInit "p").2 :=
    Reach.step Reach.init (Step.addPerson _ "p")
  have h2 : Reach rekogEmpty false
      (add_person (add_person dbInit "p").2 "q").2 :=
    Reach.step h1 (Step.addPerson _ "q")
  have h3 := Reach.step h2
    (Step.getFace _ (some "f") (some (rawWrapped "f" "u")) true)
  have h4 := Reach.step h3
    (Step.confirm _ "f" "p" (by decide) (by decide)
      (fun hfalse => absurd hfalse (by simp)))
  exact Reach.step h4
    (Step.confirm _ "f" "q" (by decide) (by decide)
      (fun hfalse => absurd hfalse (by simp)))
